import Mathlib

/-!
Shallow embedding of the authorization/authentication core of the
Secure-API-Test repository (an Express application), together with proofs
about it.

Embedded source files:
* `src/middleware/auth.js`   — principal resolution (API-key path and the
  bearer-token tail after the user row lookup);
* `src/middleware/roles.js`  — the `requireRole` permission evaluator;
* `src/controllers/apiKeysController.js` — the `createApiKeys` issuance
  protocol (`listApiKeys`/`deleteApiKeys` are plain CRUD and not needed here).

Database rows are passed to the embedded functions as explicit arguments
(the store is an external collaborator reached through `turso.execute`);
side effects are represented by returning, alongside the HTTP response, the
ordered list of `INSERT` operations a handler performed.  Raw key material
(`crypto.randomBytes`) and hashing are irrelevant to the properties proved
here and are not modelled; the permission list stored with each key is.
-/

namespace SecureApi

/-- JavaScript values as they occur in the embedded code: SQL column values
(`NULL`, integers, text), `undefined` for absent object properties, booleans,
and the values produced by `JSON.parse` (strings, numbers, arrays, objects). -/
inductive JsVal where
  | null
  | undefined
  | bool (b : Bool)
  | num (n : Int)
  | str (s : String)
  | arr (elems : List JsVal)
  | obj (fields : List (String × JsVal))

mutual

/-- Structural equality on `JsVal`.  On primitives this coincides with the
JavaScript `===` used by the embedded code (`Array.prototype.includes`,
explicit comparisons).  For arrays/objects JavaScript `===` is reference
equality; in every embedded comparison one side is a string literal or the
lists compared share their elements, so the structural version gives the
same answers on all reachable inputs. -/
def jsValBeq : JsVal → JsVal → Bool
  | .null, .null => true
  | .undefined, .undefined => true
  | .bool a, .bool b => a == b
  | .num a, .num b => a == b
  | .str a, .str b => a == b
  | .arr xs, .arr ys => jsValListBeq xs ys
  | .obj fs, .obj gs => jsValFieldsBeq fs gs
  | _, _ => false

/-- Pointwise `jsValBeq` on lists. -/
def jsValListBeq : List JsVal → List JsVal → Bool
  | [], [] => true
  | x :: xs, y :: ys => jsValBeq x y && jsValListBeq xs ys
  | _, _ => false

/-- Pointwise `jsValBeq` on association lists. -/
def jsValFieldsBeq : List (String × JsVal) → List (String × JsVal) → Bool
  | [], [] => true
  | (k, v) :: fs, (k2, v2) :: gs => k == k2 && jsValBeq v v2 && jsValFieldsBeq fs gs
  | _, _ => false

end

instance : BEq JsVal := ⟨jsValBeq⟩

/-- JavaScript truthiness of a value, as used in `if (v)`, `v ? a : b`,
`v && w` and `v || w` positions of the embedded code. -/
def truthy : JsVal → Bool
  | .null => false
  | .undefined => false
  | .bool b => b
  | .num n => n != 0
  | .str s => s != ""
  | .arr _ => true
  | .obj _ => true

/-- Decimal digit character. -/
def digitChar (n : Nat) : Char := Char.ofNat (48 + n)

/-- Decimal digits of `n`, most significant first (fuel-indexed helper). -/
def natChars : Nat → Nat → List Char
  | 0, _ => []
  | _ + 1, 0 => []
  | fuel + 1, n => natChars fuel (n / 10) ++ [digitChar (n % 10)]

/-- Decimal representation of a natural number. -/
def natToChars (n : Nat) : List Char := if n = 0 then ['0'] else natChars (n + 1) n

/-- Decimal representation of an integer. -/
def intToChars (i : Int) : List Char :=
  if i < 0 then '-' :: natToChars i.natAbs else natToChars i.natAbs

/-- Model of the JavaScript `String(v)` coercion (also template-literal
interpolation) on the values that reach it in the embedded code.  Column
values are SQL primitives, so the array/object cases are never exercised by
the modelled paths and are given placeholder renderings. -/
def jsToString : JsVal → String
  | .null => "null"
  | .undefined => "undefined"
  | .bool true => "true"
  | .bool false => "false"
  | .num n => String.mk (intToChars n)
  | .str s => s
  | .arr _ => ""
  | .obj _ => "[object Object]"

/-- ASCII lower-casing of a character (the embedded code only ever compares
against ASCII role and permission names). -/
def lowerChar (c : Char) : Char :=
  if 'A' ≤ c && c ≤ 'Z' then Char.ofNat (c.toNat + 32) else c

/-- ASCII upper-casing of a character. -/
def upperChar (c : Char) : Char :=
  if 'a' ≤ c && c ≤ 'z' then Char.ofNat (c.toNat - 32) else c

/-- Model of `String.prototype.toLowerCase` (ASCII range). -/
def strToLower (s : String) : String := String.mk (s.data.map lowerChar)

/-- Model of `String.prototype.toUpperCase` (ASCII range). -/
def strToUpper (s : String) : String := String.mk (s.data.map upperChar)

/-- List-of-characters core of `String.prototype.startsWith`. -/
def charsPre : List Char → List Char → Bool
  | [], _ => true
  | _ :: _, [] => false
  | p :: ps, c :: cs => p == c && charsPre ps cs

/-- Model of `s.startsWith(p)`. -/
def strStartsWith (s p : String) : Bool := charsPre p.data s.data

/-- Model of `s.slice(n)` for a non-negative literal `n` (all uses in the
embedded code drop an ASCII prefix, where UTF-16 units and characters agree). -/
def strDrop (s : String) (n : Nat) : String := String.mk (s.data.drop n)

/-- A database row (or any JavaScript object) as an association list of
column names to values, in column order; `Object.keys` enumerates the keys
in that order. -/
abbrev Row := List (String × JsVal)

/-- Property access `row[k]` / `row.k`: the stored value, or `undefined`
when the object has no such key. -/
def getCol (row : Row) (k : String) : JsVal := (row.lookup k).getD .undefined

/-- Model of the truthy-flag test of `roles.js` lines 63-69 and
`apiKeysController.js` lines 48-56:
`v === 1 || v === "1" || v === true || String(v).toUpperCase() === "TRUE"`. -/
def isTruthyFlag (v : JsVal) : Bool :=
  v == .num 1 || v == .str "1" || v == .bool true || strToUpper (jsToString v) == "TRUE"

/-- Model of `(v || "").toLowerCase()`.  When `v` is truthy but not a string
JavaScript would throw; the role-name column is TEXT, so only strings reach
the truthy branch, which the model renders via `jsToString`. -/
def jsLowerOrEmpty (v : JsVal) : String :=
  if truthy v then strToLower (jsToString v) else ""

/-- Nullish test for the `??` operator. -/
def jsNullish (v : JsVal) : Bool := v == .null || v == .undefined

/-- Model of `a ?? b`. -/
def jsCoalesce (a b : JsVal) : JsVal := if jsNullish a then b else a

/-! ### A model of `JSON.parse`

`auth.js` parses the `permissions` column of an `api_keys` row with
`JSON.parse`, letting any parse error propagate to the surrounding `catch`.
The parser below covers the JSON grammar as stored by the system
(`JSON.stringify` of arrays of permission-name strings, plus any directly
inserted JSON value): literals, strings with the single-character escapes,
integer numerals, arrays and objects.  Fractional/exponent numerals and
`\u` escapes are rejected rather than parsed; they cannot be produced by
the issuance path. -/

/-- JSON whitespace. -/
def isJsonWs (c : Char) : Bool := [' ', '\t', '\n', '\r'].contains c

/-- Skip leading JSON whitespace. -/
def skipWs (cs : List Char) : List Char := cs.dropWhile isJsonWs

/-- Strip an expected literal from the front of the input, if present. -/
def stripLit : List Char → List Char → Option (List Char)
  | [], cs => some cs
  | k :: ks, c :: cs => if k == c then stripLit ks cs else none
  | _ :: _, [] => none

/-- Lookup table of the single-character JSON string escapes (escape
character to denoted character). -/
def jsonEscapes : List (Char × Char) :=
  [('"', '"'), ('\\', '\\'), ('/', '/'), ('b', Char.ofNat 8), ('f', Char.ofNat 12),
   ('n', Char.ofNat 10), ('r', Char.ofNat 13), ('t', Char.ofNat 9)]

/-- Denoted character of a JSON string escape, if legal. -/
def escapeChar (e : Char) : Option Char := jsonEscapes.lookup e

/-- Parse the remainder of a JSON string after the opening quote; returns
the string contents and the unconsumed input. -/
def parseStrChars : List Char → Option (List Char × List Char)
  | [] => none
  | c :: cs =>
    if c == '"' then some ([], cs)
    else if c == '\\' then
      match cs with
      | [] => none
      | e :: cs2 =>
        match escapeChar e with
        | some r => (parseStrChars cs2).map fun p => (r :: p.1, p.2)
        | none => none
    else (parseStrChars cs).map fun p => (c :: p.1, p.2)

/-- Numeric value of a digit run (accumulator form). -/
def digitsVal : List Char → Nat → Nat
  | [], acc => acc
  | d :: ds, acc => digitsVal ds (10 * acc + (d.toNat - 48))

/-- Parse an unsigned JSON integer numeral; fractional or exponent forms
are out of the covered grammar and rejected. -/
def natNumeral (cs : List Char) : Option (Nat × List Char) :=
  match cs.takeWhile Char.isDigit with
  | [] => none
  | ds =>
    match cs.dropWhile Char.isDigit with
    | '.' :: _ => none
    | 'e' :: _ => none
    | 'E' :: _ => none
    | rest => some (digitsVal ds 0, rest)

/-- Parse a JSON integer numeral with optional leading minus. -/
def parseJsonNumber (cs : List Char) : Option (JsVal × List Char) :=
  match cs with
  | '-' :: t =>
    (match natNumeral t with
     | some (n, rest) => some (.num (-(n : Int)), rest)
     | none => none)
  | _ =>
    match natNumeral cs with
    | some (n, rest) => some (.num ((n : Int)), rest)
    | none => none

mutual

/-- Parse one JSON value (fuel-indexed recursion). -/
def parseVal : Nat → List Char → Option (JsVal × List Char)
  | 0, _ => none
  | fuel + 1, cs =>
    let cs1 := skipWs cs
    match stripLit "null".data cs1 with
    | some rest => some (.null, rest)
    | none =>
    match stripLit "true".data cs1 with
    | some rest => some (.bool true, rest)
    | none =>
    match stripLit "false".data cs1 with
    | some rest => some (.bool false, rest)
    | none =>
    match cs1 with
    | '"' :: rest => (parseStrChars rest).map fun p => (.str (String.mk p.1), p.2)
    | '[' :: rest =>
      (match skipWs rest with
       | ']' :: rest2 => some (.arr [], rest2)
       | cs2 => (parseElems fuel cs2).map fun p => (.arr p.1, p.2))
    | '{' :: rest =>
      (match skipWs rest with
       | '}' :: rest2 => some (.obj [], rest2)
       | cs2 => (parseFields fuel cs2).map fun p => (.obj p.1, p.2))
    | cs2 => parseJsonNumber cs2

/-- Parse the comma-separated elements of a non-empty JSON array, up to and
including the closing bracket. -/
def parseElems : Nat → List Char → Option (List JsVal × List Char)
  | 0, _ => none
  | fuel + 1, cs =>
    match parseVal fuel cs with
    | none => none
    | some (v, rest) =>
      match skipWs rest with
      | ',' :: rest2 => (parseElems fuel rest2).map fun p => (v :: p.1, p.2)
      | ']' :: rest2 => some ([v], rest2)
      | _ => none

/-- Parse the members of a non-empty JSON object, up to and including the
closing brace. -/
def parseFields : Nat → List Char → Option (List (String × JsVal) × List Char)
  | 0, _ => none
  | fuel + 1, cs =>
    match skipWs cs with
    | '"' :: rest =>
      (match parseStrChars rest with
       | none => none
       | some (kcs, rest2) =>
         match skipWs rest2 with
         | ':' :: rest3 =>
           (match parseVal fuel rest3 with
            | none => none
            | some (v, rest4) =>
              match skipWs rest4 with
              | ',' :: rest5 => (parseFields fuel rest5).map fun p => ((String.mk kcs, v) :: p.1, p.2)
              | '}' :: rest5 => some ([(String.mk kcs, v)], rest5)
              | _ => none)
         | _ => none)
    | _ => none

end

/-- Model of `JSON.parse`: `none` exactly where `JSON.parse` throws (on the
covered grammar).  The fuel `2 * length + 2` dominates the recursion depth,
since every recursive step consumes at least one input character per two
units of fuel. -/
def jsonParse (s : String) : Option JsVal :=
  match parseVal (2 * s.length + 2) s.data with
  | some (v, rest) => if (skipWs rest).isEmpty then some v else none
  | none => none

/-! ### `auth.js`: principal resolution -/

/-- Failure outcomes of the `auth` middleware (each is a terminal HTTP error
response). -/
inductive AuthFailure where
  | invalidApiKey
  | missingToken
  | invalidTokenPayload
  | userNotFound
  | tokenInvalidated
deriving DecidableEq

/-- An `api_keys` row as selected in `auth.js` line 29. -/
structure ApiKeysRow where
  id : Int
  public_id : JsVal
  owner_user_id : Int
  name : JsVal
  permissions : JsVal
  disabled : JsVal

/-- The `req.user` object built in the API-key branch of `auth.js`
(lines 36-44). -/
structure ApiKeyUser where
  id : Int
  username : String
  api_key_id : Int
  api_key_name : JsVal
  permissions : JsVal

/-- API-key branch of the `auth` middleware (`auth.js` lines 21-50), given
the result of the `key_hash` lookup.  `JSON.parse` of a present but
unparseable `permissions` value throws inside the `try`, and the `catch`
answers 403 "Invalid API key"; that path is the `.error .invalidApiKey`
arm after a failed `jsonParse`. -/
def resolveApiKey (rowOpt : Option ApiKeysRow) : Except AuthFailure ApiKeyUser :=
  match rowOpt with
  | none => .error .invalidApiKey
  | some row =>
    if truthy row.disabled then .error .invalidApiKey
    else
      match (if truthy row.permissions then jsonParse (jsToString row.permissions) else some (.arr [])) with
      | none => .error .invalidApiKey
      | some permsVal =>
        .ok { id := row.owner_user_id
              , username := "api_key:" ++ jsToString (jsCoalesce row.public_id (.num row.id))
              , api_key_id := row.id
              , api_key_name := row.name
              , permissions := permsVal }

/-- A `users` row as selected in `auth.js` line 70. -/
structure UsersRow where
  id : Int
  token_version : JsVal
  role_id : JsVal
  username : String

/-- The zod-validated payload of a verified bearer token
(`tokenSchema`, `auth.js` lines 12-17): `role_id` and `token_version` are
optional integers, absent fields read back as `undefined`. -/
structure TokenPayload where
  public_id : String
  username : String
  role_id : Option Int
  token_version : Option Int

/-- The `req.user` object built in the bearer branch of `auth.js`
(lines 87-93). -/
structure UserSession where
  id : Int
  public_id : String
  username : String
  role_id : JsVal
  token_version : JsVal

/-- Model of `parsed.data.token_version ?? null`: an absent optional field
is `undefined`, which `?? null` sends to `null`; a present field is its
integer value. -/
def optIntJs : Option Int → JsVal
  | some n => .num n
  | none => .null

/-- Bearer-token branch of the `auth` middleware from the user-row lookup on
(`auth.js` lines 69-95), given the result of the `public_id` lookup.  The
token-version comparison is
`(result.rows[0].token_version ?? null) !== (parsed.data.token_version ?? null)`. -/
def resolveBearerUser (rowOpt : Option UsersRow) (payload : TokenPayload) :
    Except AuthFailure UserSession :=
  match rowOpt with
  | none => .error .userNotFound
  | some row =>
    if jsCoalesce row.token_version .null != optIntJs payload.token_version then
      .error .tokenInvalidated
    else
      .ok { id := row.id
            , public_id := payload.public_id
            , username := row.username
            , role_id := row.role_id
            , token_version := row.token_version }

/-! ### `roles.js`: the permission evaluator -/

/-- A resolved principal as seen by `requireRole`: either an API-key
`req.user` (`is_api_key` true, carrying the parsed `permissions` value) or a
bearer-token user (whose role row `requireRole` fetches by user id). -/
inductive Principal where
  | apiKey (ownerId : Int) (permissions : JsVal)
  | user (id : Int)

/-- Outcome of the `requireRole` middleware for an authenticated request:
`next()` or a 403 response with the given error message. -/
inductive Decision where
  | allow
  | deny (msg : String)
deriving DecidableEq

/-- Model of `Array.isArray(req.user.permissions) ? req.user.permissions : []`
(`roles.js` lines 13-15, `apiKeysController.js` lines 32-34). -/
def apiKeyPerms (permissionsVal : JsVal) : List JsVal :=
  match permissionsVal with
  | .arr xs => xs
  | _ => []

/-- One iteration of the API-key loop of `requireRole` (`roles.js` lines
17-29): non-string entries and `role:` gates never match; a plain entry
matches by membership or by the wildcard `"all"` being in the key's list. -/
def apiKeyEntryMatch (perms : List JsVal) (e : JsVal) : Bool :=
  match e with
  | .str s =>
    if strStartsWith s "role:" then false
    else perms.contains (.str s) || perms.contains (.str "all")
  | _ => false

/-- The ban test of `roles.js` lines 42-48:
`rolePermissions.role_name && rolePermissions.role_name.toLowerCase() === "ban"`. -/
def isBanRow (row : Row) : Bool :=
  truthy (getCol row "role_name") && strToLower (jsToString (getCol row "role_name")) == "ban"

/-- One iteration of the user loop of `requireRole` (`roles.js` lines
50-72): a `role:` gate matches by case-insensitive name equality, a plain
entry by the truthiness of the `can_` column it names. -/
def userEntryMatch (row : Row) (e : JsVal) : Bool :=
  match e with
  | .str s =>
    if strStartsWith s "role:" then
      jsLowerOrEmpty (getCol row "role_name") == strToLower (strDrop s 5)
    else
      isTruthyFlag (getCol row ("can_" ++ s))
  | _ => false

/-- The `requireRole(allowedRoles)` middleware (`roles.js` lines 7-78) for
an authenticated request.  `roleQuery` is the result of the role-row query
(`SELECT r.*, r.name AS role_name ... WHERE u.id = ?`), which only the user
branch consults.  The source loops return `next()` on the first match, so
the decision is `allow` exactly when some entry matches. -/
def requireRole (allowedRoles : List JsVal) (u : Principal) (roleQuery : Option Row) : Decision :=
  match u with
  | .apiKey _ permissionsVal =>
    if allowedRoles.any (apiKeyEntryMatch (apiKeyPerms permissionsVal)) then .allow
    else .deny "Forbidden: insufficient permissions (api key)"
  | .user _ =>
    match roleQuery with
    | none => .deny "Forbidden"
    | some row =>
      if isBanRow row then .deny "Forbidden"
      else if allowedRoles.any (userEntryMatch row) then .allow
      else .deny "Forbidden: insufficient permissions"

/-- Per-entry match relation of the evaluator, by principal variant; for a
user principal it incorporates the preconditions of the user branch (role
row found, not the banned role), under which alone any entry can match. -/
def entryMatches (u : Principal) (roleQuery : Option Row) (e : JsVal) : Bool :=
  match u with
  | .apiKey _ permissionsVal => apiKeyEntryMatch (apiKeyPerms permissionsVal) e
  | .user _ =>
    match roleQuery with
    | none => false
    | some row => !isBanRow row && userEntryMatch row e

/-! ### `apiKeysController.js`: the key-issuance protocol -/

/-- One zod-validated creation spec (`singleSchema`, lines 10-13):
`{ name: string, permissions?: string[] }`.  After `safeParse` succeeds the
entries of `permissions` are strings, so the per-entry `typeof` re-check at
lines 67-72 never fires. -/
structure KeySpec where
  name : String
  permissions : Option (List String)

/-- `Array.isArray(item.permissions) ? item.permissions : []` (line 65). -/
def itemRequested (item : KeySpec) : List String :=
  match item.permissions with
  | some l => l
  | none => []

/-- The creator's effective permission list (`creatorPerms`, lines 28-57):
the key's own parsed list for an API-key creator; for a user creator, the
names of the truthy `can_` columns of the role row, in column order. -/
def creatorPermsOf (u : Principal) (roleRow : Row) : List JsVal :=
  match u with
  | .apiKey _ permissionsVal => apiKeyPerms permissionsVal
  | .user _ =>
    ((roleRow.map Prod.fst).filter (fun k => strStartsWith k "can_")
      |>.filter (fun k => isTruthyFlag (getCol roleRow k))
      |>.map (fun k => JsVal.str (strDrop k 4)))

/-- The creator's admin status (`creatorIsAdmin`, lines 29, 37, 60):
always false for API-key creators; for user creators
`(roleRow.role_name || "").toLowerCase() === "admin"`.  Note that the query
at line 41 is `SELECT r.*` with no `role_name` alias, so the row exposes the
role's name under the key `"name"`, not `"role_name"`. -/
def creatorIsAdminOf (u : Principal) (roleRow : Row) : Bool :=
  match u with
  | .apiKey _ _ => false
  | .user _ => jsLowerOrEmpty (getCol roleRow "role_name") == "admin"

/-- `req.user?.is_api_key`. -/
def isApiKeyPrincipal : Principal → Bool
  | .apiKey _ _ => true
  | .user _ => false

/-- The full permission universe derived from the role row's `can_` columns
(lines 89-91), regardless of each flag's value. -/
def flagColumnUniverse (roleRow : Row) : List JsVal :=
  (roleRow.map Prod.fst).filter (fun k => strStartsWith k "can_")
    |>.map (fun k => JsVal.str (strDrop k 4))

/-- `requestedProcessed` (lines 77-96): the requested list, with a request
containing `"all"` replaced wholesale by the wildcard expansion for the
creator kind. -/
def expandedRequest (isApiKey creatorIsAdmin : Bool) (creatorPerms : List JsVal)
    (roleRow : Row) (requested : List String) : List JsVal :=
  if requested.contains "all" then
    if isApiKey then creatorPerms
    else if creatorIsAdmin then flagColumnUniverse roleRow
    else creatorPerms
  else requested.map JsVal.str

/-- `invalid` (line 102): the requested permissions the creator lacks, in
request order. -/
def invalidPermsOf (creatorPerms finalRequested : List JsVal) : List JsVal :=
  finalRequested.filter (fun p => !(creatorPerms.contains p))

/-- `permsToStore` (lines 116-121): `requestedProcessed` is always an array
(hence truthy), so the inner condition is its nonemptiness; an empty
processed list falls back to the original `item.permissions`. -/
def permsToStoreOf (requestedProcessed : List JsVal) (item : KeySpec) : List JsVal :=
  match item.permissions with
  | some orig => if 0 < requestedProcessed.length then requestedProcessed else orig.map JsVal.str
  | none => []

/-- Outcome of the body of the per-item loop (lines 63-140) for one item:
the batch-aborting 403 of lines 103-108, or the row `INSERT` of lines
123-126 with the computed permission list. -/
inductive ItemStep where
  | forbidden (invalid : List JsVal)
  | store (perms : List JsVal)

/-- One iteration of the creation loop (lines 63-140). -/
def processItem (isApiKey creatorIsAdmin : Bool) (creatorPerms : List JsVal)
    (roleRow : Row) (item : KeySpec) : ItemStep :=
  let requested := itemRequested item
  let requestedProcessed := expandedRequest isApiKey creatorIsAdmin creatorPerms roleRow requested
  let invalid := invalidPermsOf creatorPerms requestedProcessed
  if !creatorIsAdmin && decide (0 < invalid.length) then .forbidden invalid
  else .store (permsToStoreOf requestedProcessed item)

/-- The HTTP response of `createApiKeys`: the 403 escalation denial with its
`invalid_permissions` list, or the 201 payload carrying each created key's
stored permission list (ids, raw secrets and timestamps are generated
effectfully and not modelled). -/
inductive IssueResponse where
  | forbidden (invalid : List JsVal)
  | created (permLists : List (List JsVal))

/-- Result of a `createApiKeys` call: the response sent, plus the permission
lists of the `api_keys` rows actually inserted, in insertion order.  The
early `return` at line 104 leaves previously inserted rows in place. -/
structure IssueOutcome where
  response : IssueResponse
  persisted : List (List JsVal)

/-- The creation loop over all items (lines 63-142): items are processed in
order, each valid item is inserted before the next is examined, and the
first invalid item aborts the loop with the denial response. -/
def processItems (isApiKey creatorIsAdmin : Bool) (creatorPerms : List JsVal)
    (roleRow : Row) : List KeySpec → IssueOutcome
  | [] => ⟨.created [], []⟩
  | item :: rest =>
    match processItem isApiKey creatorIsAdmin creatorPerms roleRow item with
    | .forbidden invalid => ⟨.forbidden invalid, []⟩
    | .store perms =>
      let o := processItems isApiKey creatorIsAdmin creatorPerms roleRow rest
      match o.response with
      | .forbidden inv => ⟨.forbidden inv, perms :: o.persisted⟩
      | .created ls => ⟨.created (perms :: ls), perms :: o.persisted⟩

/-- The role row the controller works with: `{}` for API-key creators (the
role query is skipped), `roleRes.rows[0] || {}` for user creators
(lines 30, 40-44). -/
def effectiveRoleRow (u : Principal) (roleQuery : Option Row) : Row :=
  match u with
  | .apiKey _ _ => []
  | .user _ => roleQuery.getD []

/-- The `createApiKeys` handler (lines 17-148) after successful zod
validation, given the creator principal, the result of the creator's
role-row query, and the validated items. -/
def createApiKeys (u : Principal) (roleQuery : Option Row) (items : List KeySpec) : IssueOutcome :=
  let roleRow := effectiveRoleRow u roleQuery
  processItems (isApiKeyPrincipal u) (creatorIsAdminOf u roleRow) (creatorPermsOf u roleRow)
    roleRow items

/-- True when the call answered 201 (all items created). -/
def issueSucceeded (o : IssueOutcome) : Bool :=
  match o.response with
  | .created _ => true
  | .forbidden _ => false

/-- Column names of a `SELECT r.*` roles row, in the declaration order of
`CREATE TABLE IF NOT EXISTS roles` in `migrations/dbinit.sql`: `id`, `name`,
the eleven `can_<permission>` flags, and `created_at`.  In particular there
is no `role_name` column (`roles.js` line 37 aliases `r.name AS role_name`
explicitly; the query in `apiKeysController.js` line 41 does not). -/
def rolesColumns : List String :=
  ["id", "name", "can_get_my_user", "can_get_users", "can_post_login", "can_post_products",
   "can_get_products", "can_get_my_products", "can_get_bestsellers", "can_upload_media",
   "can_create_api_keys", "can_read_api_keys", "can_delete_api_keys", "created_at"]

/-- A full roles-table row named "admin" in which every permission flag is
granted except `can_get_users` (flags are INTEGER columns mutated by
administrative migration; the dbinit seed happens to set all eleven for the
admin role, but any 0/1 assignment is a legal row and role edits take
effect on the next request). -/
def adminRowOneFlagOff : Row :=
  [("id", .num 1), ("name", .str "admin"),
   ("can_get_my_user", .num 1), ("can_get_users", .num 0), ("can_post_login", .num 1),
   ("can_post_products", .num 1), ("can_get_products", .num 1), ("can_get_my_products", .num 1),
   ("can_get_bestsellers", .num 1), ("can_upload_media", .num 1), ("can_create_api_keys", .num 1),
   ("can_read_api_keys", .num 1), ("can_delete_api_keys", .num 1),
   ("created_at", .str "2025-01-01 00:00:00.000")]

/-! ### Helper lemmas -/

mutual

theorem jsValBeq_refl : ∀ a : JsVal, jsValBeq a a = true
  | .null => rfl
  | .undefined => rfl
  | .bool b => by simp [jsValBeq]
  | .num n => by simp [jsValBeq]
  | .str s => by simp [jsValBeq]
  | .arr xs => by simpa [jsValBeq] using jsValListBeq_refl xs
  | .obj fs => by simpa [jsValBeq] using jsValFieldsBeq_refl fs

theorem jsValListBeq_refl : ∀ l : List JsVal, jsValListBeq l l = true
  | [] => rfl
  | x :: xs => by simp [jsValListBeq, jsValBeq_refl x, jsValListBeq_refl xs]

theorem jsValFieldsBeq_refl : ∀ l : List (String × JsVal), jsValFieldsBeq l l = true
  | [] => rfl
  | (k, v) :: fs => by simp [jsValFieldsBeq, jsValBeq_refl v, jsValFieldsBeq_refl fs]

end

theorem contains_of_mem_js {l : List JsVal} {a : JsVal} (h : a ∈ l) : l.contains a = true := by
  induction l with
  | nil => cases h
  | cons x xs ih =>
    rw [List.contains_cons]
    rcases List.mem_cons.mp h with h1 | h2
    · subst h1
      have : (a == a) = true := jsValBeq_refl a
      simp [this]
    · simp [ih h2]

theorem jsValBeq_prim (x y : JsVal) (hy : y = .null ∨ ∃ n, y = .num n) :
    (x == y) = true ↔ x = y := by
  have hshow : (x == y) = jsValBeq x y := rfl
  rw [hshow]
  rcases hy with h | ⟨n, h⟩ <;> subst h <;> cases x <;> simp [jsValBeq]

theorem any_eq_of_perm {α : Type} (f : α → Bool) {l1 l2 : List α} (h : l1.Perm l2) :
    l1.any f = l2.any f := by
  cases h2 : l2.any f with
  | false =>
    rw [List.any_eq_false] at h2 ⊢
    intro x hx
    exact h2 x (h.mem_iff.mp hx)
  | true =>
    rw [List.any_eq_true] at h2 ⊢
    obtain ⟨x, hx, hf⟩ := h2
    exact ⟨x, h.mem_iff.mpr hx, hf⟩

theorem invalid_empty_iff (S l : List JsVal) :
    invalidPermsOf S l = [] ↔ ∀ p ∈ l, S.contains p = true := by
  rw [invalidPermsOf, List.filter_eq_nil_iff]
  constructor
  · intro h p hp
    have := h p hp
    simpa using this
  · intro h p hp
    simp [h p hp]

theorem invalid_self (S : List JsVal) : invalidPermsOf S S = [] := by
  rw [invalid_empty_iff]
  intro p hp
  exact contains_of_mem_js hp

theorem requireRole_allow_iff_any (u : Principal) (rq : Option Row) (L : List JsVal) :
    requireRole L u rq = .allow ↔ L.any (entryMatches u rq) = true := by
  cases u with
  | apiKey oid pv =>
    by_cases h : L.any (apiKeyEntryMatch (apiKeyPerms pv)) = true
    · simp [requireRole, entryMatches, h]
      exact List.any_eq_true.mp h
    · rw [Bool.not_eq_true] at h
      simp [requireRole, entryMatches, h]
      intro x hx
      have := List.any_eq_false.mp h x hx
      simpa using this
  | user uid =>
    cases rq with
    | none => simp [requireRole, entryMatches]
    | some row =>
      cases hb : isBanRow row with
      | true => simp [requireRole, entryMatches, hb]
      | false =>
        by_cases h : L.any (userEntryMatch row) = true
        · simp [requireRole, entryMatches, hb, h]
          exact List.any_eq_true.mp h
        · rw [Bool.not_eq_true] at h
          simp [requireRole, entryMatches, hb, h]
          intro x hx
          have := List.any_eq_false.mp h x hx
          simpa using this

/-! ### Claim theorems for the permission evaluator -/

/-- Claim C4: `requireRole` answers Allow exactly when some entry of the
gate list matches the principal under the evaluation rules, and the
Allow/Deny outcome is invariant under permutation of the list. -/
theorem requireRole_is_or_of_matches (u : Principal) (rq : Option Row) (L : List JsVal) :
    (requireRole L u rq = .allow ↔ ∃ e ∈ L, entryMatches u rq e = true) ∧
    (∀ L2, L.Perm L2 → requireRole L u rq = requireRole L2 u rq) := by
  constructor
  · rw [requireRole_allow_iff_any, List.any_eq_true]
  · intro L2 hp
    cases u with
    | apiKey oid pv =>
      have h2 := any_eq_of_perm (apiKeyEntryMatch (apiKeyPerms pv)) hp
      simp only [requireRole, h2]
    | user uid =>
      cases rq with
      | none => rfl
      | some row =>
        have h2 := any_eq_of_perm (userEntryMatch row) hp
        simp only [requireRole, h2]

/-- Witness for C4 at a concrete principal and a concrete permutation. -/
theorem requireRole_is_or_of_matches_witness :
    requireRole [JsVal.str "x", JsVal.str "a"] (.apiKey 3 (.arr [JsVal.str "a"])) none
      = requireRole [JsVal.str "a", JsVal.str "x"] (.apiKey 3 (.arr [JsVal.str "a"])) none :=
  (requireRole_is_or_of_matches (.apiKey 3 (.arr [JsVal.str "a"])) none
      [JsVal.str "x", JsVal.str "a"]).2
    [JsVal.str "a", JsVal.str "x"] (List.Perm.swap (JsVal.str "a") (JsVal.str "x") [])

/-- Claim C6: a user principal whose role row carries the name "ban"
(case-insensitively) is denied for every gate list, including lists
containing `role:ban`. -/
theorem banned_user_always_denied (uid : Int) (row : Row) (s : String) (L : List JsVal)
    (h1 : getCol row "role_name" = .str s) (h2 : strToLower s = "ban") :
    requireRole L (.user uid) (some row) = .deny "Forbidden" := by
  have hs : s ≠ "" := by
    intro h
    rw [h] at h2
    exact absurd h2 (by decide)
  have hb : isBanRow row = true := by
    simp [isBanRow, h1, truthy, jsToString, h2, hs]
  simp [requireRole, hb]

/-- Witness for C6: a role named "Ban" and the gate list `[role:ban]`. -/
theorem banned_user_always_denied_witness :
    requireRole [JsVal.str "role:ban"] (.user 4) (some [("role_name", JsVal.str "Ban")])
      = .deny "Forbidden" :=
  banned_user_always_denied 4 [("role_name", JsVal.str "Ban")] "Ban" [JsVal.str "role:ban"]
    rfl (by decide)

/-- Claim C7: `role:` gate entries never match an API-key principal, and a
gate list made only of `role:` entries always denies an API-key principal,
whatever the key's permissions. -/
theorem apiKey_never_satisfies_role_gates :
    (∀ (perms : List JsVal) (s : String), strStartsWith s "role:" = true →
       apiKeyEntryMatch perms (.str s) = false) ∧
    (∀ (oid : Int) (pv : JsVal) (rq : Option Row) (L : List JsVal),
       (∀ e ∈ L, ∃ s, e = JsVal.str s ∧ strStartsWith s "role:" = true) →
       requireRole L (.apiKey oid pv) rq = .deny "Forbidden: insufficient permissions (api key)") := by
  constructor
  · intro perms s h
    simp [apiKeyEntryMatch, h]
  · intro oid pv rq L hL
    have hA : L.any (apiKeyEntryMatch (apiKeyPerms pv)) = false := by
      rw [List.any_eq_false]
      intro e he
      obtain ⟨s, rfl, hs⟩ := hL e he
      simp [apiKeyEntryMatch, hs]
    simp [requireRole, hA]

/-- Witness for C7: a key whose list even contains the wildcard "all" is
denied by `[role:admin]`. -/
theorem apiKey_never_satisfies_role_gates_witness :
    requireRole [JsVal.str "role:admin"] (.apiKey 1 (.arr [JsVal.str "all"])) none
      = .deny "Forbidden: insufficient permissions (api key)" :=
  apiKey_never_satisfies_role_gates.2 1 (.arr [JsVal.str "all"]) none [JsVal.str "role:admin"]
    (by
      intro e he
      rw [List.mem_singleton] at he
      exact ⟨"role:admin", he, rfl⟩)

/-- Claim C10: with an empty requirement list, `requireRole` denies every
authenticated principal — both branches fall through their (empty) loops. -/
theorem empty_gate_list_denies (u : Principal) (rq : Option Row) :
    ∃ msg, requireRole [] u rq = .deny msg := by
  cases u with
  | apiKey oid pv => exact ⟨"Forbidden: insufficient permissions (api key)", rfl⟩
  | user uid =>
    cases rq with
    | none => exact ⟨"Forbidden", rfl⟩
    | some row =>
      cases hb : isBanRow row with
      | true => exact ⟨"Forbidden", by simp [requireRole, hb]⟩
      | false => exact ⟨"Forbidden: insufficient permissions", by simp [requireRole, hb]⟩

/-! ### Claim theorems for principal resolution -/

/-- Claim C5: with the user row found, resolution fails with the
token-invalidated error exactly when the null-normalized stored
`token_version` differs from the null-normalized token snapshot (so two
missing values compare equal), and on equality the produced principal
carries the stored `role_id` and `token_version`. -/
theorem token_version_revocation (row : UsersRow) (payload : TokenPayload) :
    (resolveBearerUser (some row) payload = .error .tokenInvalidated ↔
       jsCoalesce row.token_version .null ≠ optIntJs payload.token_version) ∧
    (jsCoalesce row.token_version .null = optIntJs payload.token_version →
       resolveBearerUser (some row) payload =
         .ok ⟨row.id, payload.public_id, row.username, row.role_id, row.token_version⟩) := by
  have hy : optIntJs payload.token_version = .null ∨
      ∃ n, optIntJs payload.token_version = .num n := by
    cases payload.token_version with
    | none => exact Or.inl rfl
    | some n => exact Or.inr ⟨n, rfl⟩
  have hbeq := jsValBeq_prim (jsCoalesce row.token_version .null) _ hy
  constructor
  · cases hb : (jsCoalesce row.token_version .null == optIntJs payload.token_version) with
    | true =>
      have heq := hbeq.mp hb
      simp only [resolveBearerUser, bne, hb, Bool.not_true, Bool.false_eq_true, if_false]
      constructor
      · intro h
        exact Except.noConfusion h
      · intro h
        exact absurd heq h
    | false =>
      have hne : jsCoalesce row.token_version .null ≠ optIntJs payload.token_version := by
        intro h
        exact absurd (hbeq.mpr h) (by simp [hb])
      simp [resolveBearerUser, bne, hb, hne]
  · intro heq
    have hb := hbeq.mpr heq
    simp [resolveBearerUser, bne, hb]

/-- Witness for C5: a pre-versioning token (no snapshot) against a user row
whose counter is NULL — both normalize to null and resolution succeeds. -/
theorem token_version_revocation_witness :
    resolveBearerUser (some ⟨10, .null, .num 3, "u"⟩) ⟨"pub", "u", some 3, none⟩
      = .ok ⟨10, "pub", "u", .num 3, .null⟩ :=
  (token_version_revocation ⟨10, .null, .num 3, "u"⟩ ⟨"pub", "u", some 3, none⟩).2 rfl

/-- Claim C8 (amended): for an enabled key row, a falsy (absent/empty)
`permissions` field defaults the principal's permission value to the empty
array; a present and parseable field yields its parsed value; a present but
unparseable field makes resolution fail with the invalid-API-key error (the
parse error is caught by the middleware's catch), rather than defaulting. -/
theorem apiKey_permissions_parse (row : ApiKeysRow) (hd : truthy row.disabled = false) :
    (truthy row.permissions = false →
       resolveApiKey (some row) =
         .ok ⟨row.owner_user_id,
              "api_key:" ++ jsToString (jsCoalesce row.public_id (.num row.id)),
              row.id, row.name, .arr []⟩) ∧
    (∀ v, truthy row.permissions = true → jsonParse (jsToString row.permissions) = some v →
       resolveApiKey (some row) =
         .ok ⟨row.owner_user_id,
              "api_key:" ++ jsToString (jsCoalesce row.public_id (.num row.id)),
              row.id, row.name, v⟩) ∧
    (truthy row.permissions = true → jsonParse (jsToString row.permissions) = none →
       resolveApiKey (some row) = .error .invalidApiKey) := by
  refine ⟨?_, ?_, ?_⟩
  · intro h
    simp [resolveApiKey, hd, h]
  · intro v h1 h2
    simp [resolveApiKey, hd, h1, h2]
  · intro h1 h2
    simp [resolveApiKey, hd, h1, h2]

/-- Witness for C8's amended claim: a stored JSON array parses back. -/
theorem apiKey_permissions_parse_witness :
    resolveApiKey (some ⟨21, .str "pub_k", 2, .str "k", .str "[\"a\"]", .num 0⟩)
      = .ok ⟨2, "api_key:pub_k", 21, .str "k", .arr [.str "a"]⟩ :=
  (apiKey_permissions_parse ⟨21, .str "pub_k", 2, .str "k", .str "[\"a\"]", .num 0⟩ rfl).2.1
    (.arr [.str "a"]) rfl rfl

/-- Counterexample to claim C8 as stated: an enabled key row whose stored
`permissions` value is present but not JSON makes resolution fail with the
invalid-API-key error; it does not succeed with an empty permission list. -/
theorem apiKey_malformed_permissions_fails :
    resolveApiKey (some ⟨21, .str "pub_k", 2, .str "k", .str "notjson", .num 0⟩)
        = .error .invalidApiKey ∧
    jsonParse "notjson" = none ∧
    truthy (JsVal.str "notjson") = true ∧
    truthy (JsVal.num 0) = false ∧
    ∀ k, resolveApiKey (some ⟨21, .str "pub_k", 2, .str "k", .str "notjson", .num 0⟩)
        ≠ Except.ok k :=
  ⟨rfl, rfl, rfl, rfl, fun _ h => Except.noConfusion h⟩

/-! ### Lemmas about the issuance loop -/

theorem processItem_store_of_valid (isk : Bool) (S : List JsVal) (row : Row) (item : KeySpec)
    (h : invalidPermsOf S (expandedRequest isk false S row (itemRequested item)) = []) :
    processItem isk false S row item
      = .store (permsToStoreOf (expandedRequest isk false S row (itemRequested item)) item) := by
  simp [processItem, h]

theorem processItem_forbidden_of_invalid (isk : Bool) (S : List JsVal) (row : Row) (item : KeySpec)
    (h : invalidPermsOf S (expandedRequest isk false S row (itemRequested item)) ≠ []) :
    processItem isk false S row item
      = .forbidden (invalidPermsOf S (expandedRequest isk false S row (itemRequested item))) := by
  have hl : 0 < (invalidPermsOf S (expandedRequest isk false S row (itemRequested item))).length :=
    List.length_pos.mpr h
  simp [processItem, hl]

theorem processItems_success_iff (isk : Bool) (S : List JsVal) (row : Row) (items : List KeySpec) :
    issueSucceeded (processItems isk false S row items) = true ↔
      ∀ item ∈ items, invalidPermsOf S (expandedRequest isk false S row (itemRequested item)) = [] := by
  induction items with
  | nil => simp [processItems, issueSucceeded]
  | cons item rest ih =>
    by_cases hinv : invalidPermsOf S (expandedRequest isk false S row (itemRequested item)) = []
    · have hstep : issueSucceeded (processItems isk false S row (item :: rest))
          = issueSucceeded (processItems isk false S row rest) := by
        simp only [processItems, processItem_store_of_valid isk S row item hinv]
        cases hro : (processItems isk false S row rest).response <;> simp [issueSucceeded, hro]
      rw [hstep, ih, List.forall_mem_cons]
      simp [hinv]
    · simp only [processItems, processItem_forbidden_of_invalid isk S row item hinv]
      simp [issueSucceeded, List.forall_mem_cons, hinv]

theorem processItems_first_forbidden (isk : Bool) (S : List JsVal) (row : Row)
    (pre : List KeySpec) (bad : KeySpec) (post : List KeySpec)
    (hpre : ∀ x ∈ pre, invalidPermsOf S (expandedRequest isk false S row (itemRequested x)) = [])
    (hbad : invalidPermsOf S (expandedRequest isk false S row (itemRequested bad)) ≠ []) :
    processItems isk false S row (pre ++ bad :: post)
      = ⟨.forbidden (invalidPermsOf S (expandedRequest isk false S row (itemRequested bad))),
         pre.map (fun x => permsToStoreOf (expandedRequest isk false S row (itemRequested x)) x)⟩ := by
  induction pre with
  | nil =>
    simp only [List.nil_append, processItems,
      processItem_forbidden_of_invalid isk S row bad hbad, List.map_nil]
  | cons x pre2 ih =>
    have hx := hpre x (List.mem_cons_self x pre2)
    have hrest := ih (fun y hy => hpre y (List.mem_cons_of_mem x hy))
    simp only [List.cons_append, processItems, processItem_store_of_valid isk S row x hx,
      List.append_eq, hrest, List.map_cons]

/-! ### Claim theorems for the issuance protocol -/

/-- Claim C1 (amended): for a non-admin creator with effective set S,
issuance answers 201 iff every spec's expanded request is contained in S;
when some spec's expanded request is not, the loop stops at the first
offending spec — the keys of the specs before it are persisted (the batch
is not atomic), none from it on, and the denial carries exactly the
elements of that spec's expanded request outside S, in request order. -/
theorem createApiKeys_nonadmin_escalation_gate (u : Principal) (rq : Option Row)
    (items : List KeySpec)
    (hna : creatorIsAdminOf u (effectiveRoleRow u rq) = false) :
    (issueSucceeded (createApiKeys u rq items) = true ↔
       ∀ item ∈ items, ∀ p ∈ expandedRequest (isApiKeyPrincipal u) false
           (creatorPermsOf u (effectiveRoleRow u rq)) (effectiveRoleRow u rq)
           (itemRequested item),
         (creatorPermsOf u (effectiveRoleRow u rq)).contains p = true) ∧
    (∀ pre bad post, items = pre ++ bad :: post →
       (∀ x ∈ pre, ∀ p ∈ expandedRequest (isApiKeyPrincipal u) false
            (creatorPermsOf u (effectiveRoleRow u rq)) (effectiveRoleRow u rq)
            (itemRequested x),
          (creatorPermsOf u (effectiveRoleRow u rq)).contains p = true) →
       ¬ (∀ p ∈ expandedRequest (isApiKeyPrincipal u) false
            (creatorPermsOf u (effectiveRoleRow u rq)) (effectiveRoleRow u rq)
            (itemRequested bad),
          (creatorPermsOf u (effectiveRoleRow u rq)).contains p = true) →
       (createApiKeys u rq items).response
           = .forbidden (invalidPermsOf (creatorPermsOf u (effectiveRoleRow u rq))
               (expandedRequest (isApiKeyPrincipal u) false
                 (creatorPermsOf u (effectiveRoleRow u rq)) (effectiveRoleRow u rq)
                 (itemRequested bad))) ∧
       (createApiKeys u rq items).persisted
           = pre.map (fun x => permsToStoreOf (expandedRequest (isApiKeyPrincipal u) false
               (creatorPermsOf u (effectiveRoleRow u rq)) (effectiveRoleRow u rq)
               (itemRequested x)) x)) ∧
    (∀ (l : List JsVal) (p : JsVal),
       p ∈ invalidPermsOf (creatorPermsOf u (effectiveRoleRow u rq)) l ↔
         p ∈ l ∧ (creatorPermsOf u (effectiveRoleRow u rq)).contains p = false) := by
  have hck : createApiKeys u rq items
      = processItems (isApiKeyPrincipal u) false (creatorPermsOf u (effectiveRoleRow u rq))
          (effectiveRoleRow u rq) items := by
    simp [createApiKeys, hna]
  refine ⟨?_, ?_, ?_⟩
  · rw [hck, processItems_success_iff]
    simp only [invalid_empty_iff]
  · intro pre bad post hsplit hpre hbad
    subst hsplit
    have hpre2 : ∀ x ∈ pre, invalidPermsOf (creatorPermsOf u (effectiveRoleRow u rq))
        (expandedRequest (isApiKeyPrincipal u) false (creatorPermsOf u (effectiveRoleRow u rq))
          (effectiveRoleRow u rq) (itemRequested x)) = [] :=
      fun x hx => (invalid_empty_iff _ _).mpr (hpre x hx)
    have hbad2 : invalidPermsOf (creatorPermsOf u (effectiveRoleRow u rq))
        (expandedRequest (isApiKeyPrincipal u) false (creatorPermsOf u (effectiveRoleRow u rq))
          (effectiveRoleRow u rq) (itemRequested bad)) ≠ [] :=
      fun h => hbad ((invalid_empty_iff _ _).mp h)
    rw [hck, processItems_first_forbidden _ _ _ pre bad post hpre2 hbad2]
    exact ⟨rfl, rfl⟩
  · intro l p
    simp [invalidPermsOf, List.mem_filter]

/-- Witness for C1's amended claim: a creator with effective set {a}
successfully issues a key requesting ["a"]. -/
theorem createApiKeys_nonadmin_escalation_gate_witness :
    issueSucceeded (createApiKeys (Principal.user 1)
      (some [("id", JsVal.num 2), ("name", JsVal.str "user"), ("can_a", JsVal.num 1)])
      [⟨"k", some ["a"]⟩]) = true :=
  ((createApiKeys_nonadmin_escalation_gate (Principal.user 1)
      (some [("id", JsVal.num 2), ("name", JsVal.str "user"), ("can_a", JsVal.num 1)])
      [⟨"k", some ["a"]⟩] rfl).1).mpr (by
    intro item hitem
    rw [List.mem_singleton] at hitem
    subst hitem
    exact (invalid_empty_iff _ _).mp rfl)

/-- Counterexample to claim C1 as stated: with effective set {a} and batch
[{k1, [a]}, {k2, [b]}], the denial for k2 arrives after k1's row was already
inserted, so the number of persisted records is not zero. -/
theorem createApiKeys_batch_not_atomic :
    (createApiKeys (Principal.user 1)
        (some [("id", JsVal.num 2), ("name", JsVal.str "user"), ("can_a", JsVal.num 1)])
        [⟨"k1", some ["a"]⟩, ⟨"k2", some ["b"]⟩]).response = .forbidden [JsVal.str "b"] ∧
    (createApiKeys (Principal.user 1)
        (some [("id", JsVal.num 2), ("name", JsVal.str "user"), ("can_a", JsVal.num 1)])
        [⟨"k1", some ["a"]⟩, ⟨"k2", some ["b"]⟩]).persisted = [[JsVal.str "a"]] ∧
    [[JsVal.str "a"]] ≠ ([] : List (List JsVal)) :=
  ⟨rfl, rfl, by simp⟩

/-- Claim C2 at the failing input (code bug): a creator whose effective set
is empty requests ["all"]; the expansion is empty, `permsToStore` falls back
to the original request, and the literal "all" is persisted — contradicting
the controller's stated intent of never storing the literal "all". -/
theorem literal_all_persisted_on_empty_expansion :
    (createApiKeys (Principal.apiKey 5 (.arr [])) none [⟨"k", some ["all"]⟩]).persisted
        = [[JsVal.str "all"]] ∧
    issueSucceeded (createApiKeys (Principal.apiKey 5 (.arr [])) none [⟨"k", some ["all"]⟩])
        = true ∧
    expandedRequest true false [] [] ["all"] = [] :=
  ⟨rfl, rfl, rfl⟩

/-- Claim C3 at the failing input (code bug): a roles row of the deployed
`dbinit.sql` schema (all fourteen columns, in declaration order) named
"admin" with the `can_get_users` flag cleared.  `creatorIsAdminOf` reads
the nonexistent `role_name` key of the unaliased `SELECT r.*` row, so the
creator is never detected as admin, and a request for ["all"] stores only
the ten truthy flags instead of the full eleven-name flag-column universe. -/
theorem admin_all_expansion_not_universe :
    adminRowOneFlagOff.map Prod.fst = rolesColumns ∧
    creatorIsAdminOf (Principal.user 7) adminRowOneFlagOff = false ∧
    (createApiKeys (Principal.user 7) (some adminRowOneFlagOff)
        [⟨"k", some ["all"]⟩]).persisted
      = [[JsVal.str "get_my_user", JsVal.str "post_login", JsVal.str "post_products",
          JsVal.str "get_products", JsVal.str "get_my_products", JsVal.str "get_bestsellers",
          JsVal.str "upload_media", JsVal.str "create_api_keys", JsVal.str "read_api_keys",
          JsVal.str "delete_api_keys"]] ∧
    flagColumnUniverse adminRowOneFlagOff
      = [JsVal.str "get_my_user", JsVal.str "get_users", JsVal.str "post_login",
         JsVal.str "post_products", JsVal.str "get_products", JsVal.str "get_my_products",
         JsVal.str "get_bestsellers", JsVal.str "upload_media", JsVal.str "create_api_keys",
         JsVal.str "read_api_keys", JsVal.str "delete_api_keys"] ∧
    (createApiKeys (Principal.user 7) (some adminRowOneFlagOff)
        [⟨"k", some ["all"]⟩]).persisted
      ≠ [flagColumnUniverse adminRowOneFlagOff] := by
  refine ⟨rfl, rfl, rfl, rfl, ?_⟩
  intro h
  have h2 := congrArg (fun l => (l.headD []).length) h
  exact absurd h2 (by decide)

/-- Claim C9 (amended): when a spec's requested list contains "all", the
spec never fails the escalation check, and the stored list is the wildcard
expansion alone when that expansion is nonempty — names listed alongside
"all" are discarded, not unioned; when the expansion is empty, the original
requested list (including the literal "all") is stored verbatim. -/
theorem wildcard_replaces_request (u : Principal) (rq : Option Row) (item : KeySpec)
    (requested : List String) (h1 : item.permissions = some requested)
    (h2 : requested.contains "all" = true) :
    processItem (isApiKeyPrincipal u) (creatorIsAdminOf u (effectiveRoleRow u rq))
        (creatorPermsOf u (effectiveRoleRow u rq)) (effectiveRoleRow u rq) item
      = .store (if 0 < (expandedRequest (isApiKeyPrincipal u)
                    (creatorIsAdminOf u (effectiveRoleRow u rq))
                    (creatorPermsOf u (effectiveRoleRow u rq)) (effectiveRoleRow u rq)
                    requested).length
                then expandedRequest (isApiKeyPrincipal u)
                    (creatorIsAdminOf u (effectiveRoleRow u rq))
                    (creatorPermsOf u (effectiveRoleRow u rq)) (effectiveRoleRow u rq)
                    requested
                else requested.map JsVal.str) := by
  have hreq : itemRequested item = requested := by simp [itemRequested, h1]
  have hstore : permsToStoreOf (expandedRequest (isApiKeyPrincipal u)
      (creatorIsAdminOf u (effectiveRoleRow u rq)) (creatorPermsOf u (effectiveRoleRow u rq))
      (effectiveRoleRow u rq) requested) item
      = (if 0 < (expandedRequest (isApiKeyPrincipal u)
            (creatorIsAdminOf u (effectiveRoleRow u rq))
            (creatorPermsOf u (effectiveRoleRow u rq)) (effectiveRoleRow u rq)
            requested).length
         then expandedRequest (isApiKeyPrincipal u) (creatorIsAdminOf u (effectiveRoleRow u rq))
            (creatorPermsOf u (effectiveRoleRow u rq)) (effectiveRoleRow u rq) requested
         else requested.map JsVal.str) := by
    simp [permsToStoreOf, h1]
  cases hA : creatorIsAdminOf u (effectiveRoleRow u rq) with
  | true =>
    rw [hA] at hstore
    simp only [processItem, hreq, Bool.not_true, Bool.false_and, Bool.false_eq_true, if_false]
    exact congrArg ItemStep.store hstore
  | false =>
    rw [hA] at hstore
    have h2m : "all" ∈ requested := List.mem_of_elem_eq_true h2
    have hSexp : expandedRequest (isApiKeyPrincipal u) false
        (creatorPermsOf u (effectiveRoleRow u rq)) (effectiveRoleRow u rq) requested
        = creatorPermsOf u (effectiveRoleRow u rq) := by
      cases isApiKeyPrincipal u <;> simp [expandedRequest, h2m]
    rw [hSexp] at hstore
    rw [hSexp]
    simp only [processItem, hreq, hSexp, invalid_self, List.length_nil, lt_self_iff_false,
      decide_False, Bool.and_false, Bool.false_eq_true, if_false]
    exact congrArg ItemStep.store hstore

/-- Witness for C9's amended claim: a non-admin user creator with effective
set {a} requesting ["all"] gets exactly {a} stored. -/
theorem wildcard_replaces_request_witness :
    processItem false false [JsVal.str "a"] [("can_a", JsVal.num 1)] ⟨"k", some ["all"]⟩
      = .store [JsVal.str "a"] :=
  wildcard_replaces_request (Principal.user 1) (some [("can_a", JsVal.num 1)])
    ⟨"k", some ["all"]⟩ ["all"] rfl rfl

/-- Counterexample to claim C9 as stated: with an empty expansion, the spec
["all", "x"] is stored verbatim — "x" is not discarded and the stored list
is not the expansion alone. -/
theorem wildcard_alongside_kept_on_empty_expansion :
    (createApiKeys (Principal.apiKey 9 (.arr [])) none [⟨"k", some ["all", "x"]⟩]).persisted
        = [[JsVal.str "all", JsVal.str "x"]] ∧
    expandedRequest true false [] [] ["all", "x"] = [] :=
  ⟨rfl, rfl⟩

end SecureApi
